import Mathlib

/-!
Shallow embedding of `src/hooks/stop-hook.py` (the Ralph Wiggum stop hook,
cross-platform Python version) and proofs about the claims of its
specification.

The script is a single function `main` that reads the hook payload from
stdin, a loop state file at `.claude/ralph-loop.local.md`, and a transcript
file named by the payload, and decides whether to allow the session to stop
or to emit a block decision.  The embedding models the script as a pure
function from (stdin contents, state-file contents, filesystem) to an
`Effects` record collecting the stdout lines, stderr lines, final state-file
contents and exit code.

Modelling notes (deviations from CPython that the development is aware of):
* Python's `str.strip`, `str.split` and the regex classes `\s`, `\d` accept
  some non-ASCII whitespace/digit characters; the embedding models the ASCII
  ones (space, tab, CR, LF, vertical tab, form feed; digits 0-9).
* `str.splitlines` also splits on rare control/Unicode separators; the
  embedding models `\n`, `\r\n` and `\r`.
* JSON numbers with a fraction or exponent, `NaN`/`Infinity`, and lone
  surrogate `\uXXXX` escapes are treated as unparsable instead of producing
  Python float/lone-surrogate values; no claim depends on such inputs.
* Python exception message texts (printed as `f"   Error: {e}"`) are
  abstracted to the exception class name.
* `str(Path(".claude/ralph-loop.local.md"))` is rendered POSIX style.
-/

/-! ## Python-style character and string helpers -/

/-- ASCII whitespace as accepted by Python's `str.strip`/`str.split`/`\s`. -/
def isPySpace (c : Char) : Bool :=
  c = ' ' || c = '\t' || c = '\n' || c = '\r' || c = '\x0b' || c = '\x0c'

/-- Python `str.strip()` on a character list. -/
def pyStripList (l : List Char) : List Char :=
  ((l.dropWhile isPySpace).reverse.dropWhile isPySpace).reverse

/-- Python `str.strip()`. -/
def pyStrip (s : String) : String :=
  ⟨pyStripList s.toList⟩

/-- Python `str.split()` with no argument: split on runs of whitespace,
dropping empty words. -/
def pyWords : List Char → List (List Char)
  | [] => []
  | c :: t =>
    if isPySpace c then pyWords t
    else
      match pyWords t with
      | [] => [[c]]
      | w :: ws =>
        match t with
        | [] => [[c]]
        | d :: _ => if isPySpace d then [c] :: w :: ws else (c :: w) :: ws

/-- `" ".join(x.strip().split())` from the script: collapse internal
whitespace runs to single spaces and trim the ends. -/
def normalizeWs (s : String) : String :=
  String.intercalate " " ((pyWords s.toList).map fun w => ⟨w⟩)

/-- Does `hay` contain `needle` as a contiguous substring (Python `in`)? -/
def containsSub (needle : List Char) : List Char → Bool
  | [] => needle.isPrefixOf []
  | c :: t => needle.isPrefixOf (c :: t) || containsSub needle t

/-- Split `hay` at the first occurrence of `needle`: returns the part before
the needle and the part after it. -/
def splitAtSub (needle : List Char) : List Char → Option (List Char × List Char)
  | [] => if needle.isPrefixOf ([] : List Char) then some ([], []) else none
  | c :: t =>
    if needle.isPrefixOf (c :: t) then some ([], (c :: t).drop needle.length)
    else (splitAtSub needle t).map fun p => (c :: p.1, p.2)

/-- Python `str.splitlines()` restricted to `\n`, `\r\n`, `\r`. -/
def splitLinesList : List Char → List Char → List String
  | acc, [] => if acc.isEmpty then [] else [⟨acc.reverse⟩]
  | acc, '\r' :: '\n' :: rest => ⟨acc.reverse⟩ :: splitLinesList [] rest
  | acc, '\r' :: rest => ⟨acc.reverse⟩ :: splitLinesList [] rest
  | acc, '\n' :: rest => ⟨acc.reverse⟩ :: splitLinesList [] rest
  | acc, c :: rest => splitLinesList (c :: acc) rest

/-- Python `str.splitlines()`. -/
def splitLines (s : String) : List String :=
  splitLinesList [] s.toList

/-- Numeric value of a list of decimal digit characters (Python `int`). -/
def natOfDigits (l : List Char) : Nat :=
  l.foldl (fun acc c => acc * 10 + (c.toNat - '0'.toNat)) 0

/-- The left brace character, kept out of string literals. -/
def lbrace : Char := Char.ofNat 123

/-- The right brace character, kept out of string literals. -/
def rbrace : Char := Char.ofNat 125

/-! ## JSON values and Python `json.loads` -/

/-- JSON values as produced by `json.loads`.  Object fields keep their
source order; lookups take the last binding of a key, matching Python's
dict construction where later duplicate keys win. -/
inductive Json where
  | null
  | bool (b : Bool)
  | num (n : Int)
  | str (s : String)
  | arr (elts : List Json)
  | obj (fields : List (String × Json))

/-- Python `dict.get`: last binding of the key wins. -/
def objLookup (fields : List (String × Json)) (k : String) : Option Json :=
  ((fields.filter fun p => p.1 = k).getLast?).map fun p => p.2

/-- Python truthiness of a decoded JSON value. -/
def jsonTruthy : Json → Bool
  | .null => false
  | .bool b => b
  | .num n => n != 0
  | .str s => s ≠ ""
  | .arr [] => false
  | .arr (_ :: _) => true
  | .obj [] => false
  | .obj (_ :: _) => true

/-- JSON structural whitespace. -/
def isJsonWs (c : Char) : Bool :=
  c = ' ' || c = '\t' || c = '\n' || c = '\r'

/-- Value of a hex digit, if it is one. -/
def hexVal (c : Char) : Option Nat :=
  if '0' ≤ c ∧ c ≤ '9' then some (c.toNat - '0'.toNat)
  else if 'a' ≤ c ∧ c ≤ 'f' then some (c.toNat - 'a'.toNat + 10)
  else if 'A' ≤ c ∧ c ≤ 'F' then some (c.toNat - 'A'.toNat + 10)
  else none

/-- Combine four hex digit values into a code unit. -/
def hexQuad (a b c d : Char) : Option Nat := do
  let va ← hexVal a
  let vb ← hexVal b
  let vc ← hexVal c
  let vd ← hexVal d
  pure (((va * 16 + vb) * 16 + vc) * 16 + vd)

/-- A simple escape of a JSON string literal (`\n`, `\t`, ...). -/
def simpleEscape (e : Char) : Option Char :=
  if e = '"' then some '"'
  else if e = '\\' then some '\\'
  else if e = '/' then some '/'
  else if e = 'b' then some '\x08'
  else if e = 'f' then some '\x0c'
  else if e = 'n' then some '\n'
  else if e = 'r' then some '\r'
  else if e = 't' then some '\t'
  else none

/-- Body of a JSON string literal, after the opening quote.  Returns the
decoded characters and the input remaining after the closing quote. -/
def parseStrBody : List Char → Option (List Char × List Char)
  | [] => none
  | '"' :: rest => some ([], rest)
  | '\\' :: 'u' :: a :: b :: c :: d :: rest =>
    match hexQuad a b c d with
    | none => none
    | some n =>
      if 0xD800 ≤ n ∧ n < 0xDC00 then
        -- high surrogate: require a matching low surrogate escape
        match rest with
        | '\\' :: 'u' :: a2 :: b2 :: c2 :: d2 :: rest2 =>
          match hexQuad a2 b2 c2 d2 with
          | some m =>
            if 0xDC00 ≤ m ∧ m < 0xE000 then
              (parseStrBody rest2).map fun p =>
                (Char.ofNat (0x10000 + (n - 0xD800) * 0x400 + (m - 0xDC00)) :: p.1, p.2)
            else none
          | none => none
        | _ => none
      else if 0xDC00 ≤ n ∧ n < 0xE000 then none
      else (parseStrBody rest).map fun p => (Char.ofNat n :: p.1, p.2)
  | '\\' :: e :: rest =>
    match simpleEscape e with
    | some c => (parseStrBody rest).map fun p => (c :: p.1, p.2)
    | none => none
  | c :: rest =>
    if c.toNat < 0x20 then none
    else (parseStrBody rest).map fun p => (c :: p.1, p.2)

/-- Skip JSON structural whitespace. -/
def skipJsonWs (l : List Char) : List Char :=
  l.dropWhile isJsonWs

/-- Parse a JSON integer literal (floats, `NaN` and `Infinity` are treated
as unparsable, see the module comment). -/
def parseNumLit (l : List Char) : Option (Json × List Char) :=
  let (sign, l') : Bool × List Char :=
    match l with
    | '-' :: t => (true, t)
    | _ => (false, l)
  let ds := l'.takeWhile Char.isDigit
  let rest := l'.dropWhile Char.isDigit
  if ds.isEmpty then none
  else if ds.length > 1 ∧ ds.headD '0' = '0' then none
  else
    match rest with
    | '.' :: _ => none
    | 'e' :: _ => none
    | 'E' :: _ => none
    | _ =>
      let v : Int := Int.ofNat (natOfDigits ds)
      some (.num (if sign then -v else v), rest)

mutual

/-- Parse a JSON value (fueled; fuel `input length + 1` always suffices). -/
def parseVal : Nat → List Char → Option (Json × List Char)
  | 0, _ => none
  | fuel + 1, l =>
    match skipJsonWs l with
    | 'n' :: 'u' :: 'l' :: 'l' :: r => some (.null, r)
    | 't' :: 'r' :: 'u' :: 'e' :: r => some (.bool true, r)
    | 'f' :: 'a' :: 'l' :: 's' :: 'e' :: r => some (.bool false, r)
    | '"' :: r => (parseStrBody r).map fun p => (.str ⟨p.1⟩, p.2)
    | '[' :: r =>
      (match skipJsonWs r with
       | ']' :: r2 => some (.arr [], r2)
       | r2 =>
         (parseElems fuel r2).bind fun p =>
           match skipJsonWs p.2 with
           | ']' :: r3 => some (.arr p.1, r3)
           | _ => none)
    | c :: r =>
      if c = lbrace then
        (match skipJsonWs r with
         | c2 :: r2 =>
           if c2 = rbrace then some (.obj [], r2)
           else
             (parseMembers fuel (c2 :: r2)).bind fun p =>
               match skipJsonWs p.2 with
               | c3 :: r3 => if c3 = rbrace then some (.obj p.1, r3) else none
               | _ => none
         | [] => none)
      else parseNumLit (c :: r)
    | [] => none

/-- Parse one-or-more comma-separated JSON array elements. -/
def parseElems : Nat → List Char → Option (List Json × List Char)
  | 0, _ => none
  | fuel + 1, l =>
    (parseVal fuel l).bind fun p =>
      match skipJsonWs p.2 with
      | ',' :: r => (parseElems fuel (skipJsonWs r)).map fun q => (p.1 :: q.1, q.2)
      | _ => some ([p.1], p.2)

/-- Parse one-or-more comma-separated JSON object members. -/
def parseMembers : Nat → List Char → Option (List (String × Json) × List Char)
  | 0, _ => none
  | fuel + 1, l =>
    match skipJsonWs l with
    | '"' :: r =>
      (parseStrBody r).bind fun kp =>
        match skipJsonWs kp.2 with
        | ':' :: r2 =>
          (parseVal fuel (skipJsonWs r2)).bind fun vp =>
            match skipJsonWs vp.2 with
            | ',' :: r3 => (parseMembers fuel r3).map fun q => ((⟨kp.1⟩, vp.1) :: q.1, q.2)
            | _ => some ([(⟨kp.1⟩, vp.1)], vp.2)
        | _ => none
    | _ => none

end

/-- Python `json.loads`: parse a complete JSON document, rejecting trailing
garbage.  `none` models `json.JSONDecodeError`. -/
def parseJson (s : String) : Option Json :=
  match parseVal (s.toList.length + 1) s.toList with
  | some (v, rest) => if (skipJsonWs rest).isEmpty then some v else none
  | none => none

/-- A lowercase hex digit character. -/
def hexDigitChar (n : Nat) : Char :=
  if n < 10 then Char.ofNat ('0'.toNat + n) else Char.ofNat ('a'.toNat + n - 10)

/-- `\uXXXX` escape used by `json.dumps` with `ensure_ascii=True`. -/
def uEscape (n : Nat) : List Char :=
  '\\' :: 'u' :: hexDigitChar (n / 4096 % 16) :: hexDigitChar (n / 256 % 16) ::
    hexDigitChar (n / 16 % 16) :: [hexDigitChar (n % 16)]

/-- Escape of one character in `json.dumps` output (`ensure_ascii=True`). -/
def jsonEscapeChar (c : Char) : List Char :=
  if c = '"' then ['\\', '"']
  else if c = '\\' then ['\\', '\\']
  else if c = '\n' then ['\\', 'n']
  else if c = '\r' then ['\\', 'r']
  else if c = '\t' then ['\\', 't']
  else if c = '\x08' then ['\\', 'b']
  else if c = '\x0c' then ['\\', 'f']
  else if c.toNat < 0x20 then uEscape c.toNat
  else if c.toNat < 0x7f then [c]
  else if c.toNat < 0x10000 then uEscape c.toNat
  else uEscape (0xD800 + (c.toNat - 0x10000) / 0x400) ++ uEscape (0xDC00 + (c.toNat - 0x10000) % 0x400)

/-- `json.dumps` of a string value. -/
def jsonQuote (s : String) : String :=
  ⟨'"' :: (s.toList.map jsonEscapeChar).flatten ++ ['"']⟩

/-! ## State-file parsing (`stop-hook.py` lines 32-77, 156-176) -/

/-- The opening `^---\r?\n` of both frontmatter regexes (anchored at the
start of the file since `re.MULTILINE` is not used): the input after the
opening delimiter line, if it starts with one. -/
def fmOpen : List Char → Option (List Char)
  | '-' :: '-' :: '-' :: '\r' :: '\n' :: r => some r
  | '-' :: '-' :: '-' :: '\n' :: r => some r
  | _ => none

/-- Does `\r?\n---` match here (the closing of the frontmatter capture)? -/
def fmCloseAt (l : List Char) : Bool :=
  match l with
  | '\r' :: '\n' :: '-' :: '-' :: '-' :: _ => true
  | '\n' :: '-' :: '-' :: '-' :: _ => true
  | _ => false

/-- Non-greedy scan for the end of the frontmatter capture `(.+?)`:
`acc` is the reversed capture so far, which must be nonempty before the
closing `\r?\n---` may match. -/
def fmScan : List Char → List Char → Option String
  | acc, l =>
    if !acc.isEmpty && fmCloseAt l then some ⟨acc.reverse⟩
    else
      match l with
      | [] => none
      | c :: t => fmScan (c :: acc) t

/-- `re.search(r"^---\r?\n(.+?)\r?\n---", content, re.DOTALL)` from line 33:
the frontmatter block of the state file, if it parses. -/
def frontmatterMatch (content : String) : Option String :=
  (fmOpen content.toList).bind fun r => fmScan [] r

/-- Does the lowercased frontmatter match `active:\s*(false|no)` starting
exactly here? -/
def inactiveAt (l : List Char) : Bool :=
  if "active:".toList.isPrefixOf l then
    let r := (l.drop 7).dropWhile isPySpace
    "false".toList.isPrefixOf r || "no".toList.isPrefixOf r
  else false

/-- Scan a lowercased character list for `active:\s*(false|no)`. -/
def inactiveScan : List Char → Bool
  | [] => inactiveAt []
  | c :: t => inactiveAt (c :: t) || inactiveScan t

/-- `re.search(r"active:\s*(false|no)", frontmatter, re.IGNORECASE)` from
line 42: does the frontmatter declare the loop inactive? -/
def inactiveCheck (fm : String) : Bool :=
  inactiveScan (fm.toList.map Char.toLower)

/-- The three values extracted from the frontmatter (lines 47-60). -/
structure LoopConfig where
  iteration : Nat
  maxIterations : Nat
  completionPromise : Option String
deriving Repr, DecidableEq

/-- `re.match(r"^<key>\s*(\d+)", line)` followed by `int(...)`: the numeric
value after the key, if the line carries one. -/
def matchNumField (key : String) (l : List Char) : Option Nat :=
  if key.toList.isPrefixOf l then
    let r := (l.drop key.length).dropWhile isPySpace
    let ds := r.takeWhile Char.isDigit
    if ds.isEmpty then none else some (natOfDigits ds)
  else none

/-- `re.match(r'^completion_promise:\s*"?([^"]*)"?', line)`: the captured
promise text (possibly empty), if the line starts with the key. -/
def matchPromiseField (l : List Char) : Option String :=
  if "completion_promise:".toList.isPrefixOf l then
    let r := (l.drop "completion_promise:".length).dropWhile isPySpace
    let r' := match r with
      | '"' :: t => t
      | _ => r
    some ⟨r'.takeWhile fun c => c ≠ '"'⟩
  else none

/-- One pass of the `for line in frontmatter.split("\n")` loop body
(lines 51-60): the line is stripped, then matched against the three field
patterns in order, updating the corresponding value. -/
def applyFieldLine (cfg : LoopConfig) (line : String) : LoopConfig :=
  let l := pyStripList line.toList
  match matchNumField "iteration:" l with
  | some n => { cfg with iteration := n }
  | none =>
    match matchNumField "max_iterations:" l with
    | some n => { cfg with maxIterations := n }
    | none =>
      match matchPromiseField l with
      | some v =>
        { cfg with completionPromise := if v = "null" ∨ v = "" then none else some v }
      | none => cfg

/-- Python `str.split("\n")`. -/
def splitNl : List Char → List Char → List String
  | acc, [] => [⟨acc.reverse⟩]
  | acc, '\n' :: rest => ⟨acc.reverse⟩ :: splitNl [] rest
  | acc, c :: rest => splitNl (c :: acc) rest

/-- Lines 47-60: extract `iteration`, `max_iterations` and
`completion_promise` from the frontmatter; missing numeric fields default
to 0 and a missing/malformed promise to `none`. -/
def parseFields (fm : String) : LoopConfig :=
  (splitNl [] fm.toList).foldl applyFieldLine ⟨0, 0, none⟩

/-- `\r?\n` at the head of the input, returning the remainder. -/
def dropNewline : List Char → Option (List Char)
  | '\r' :: '\n' :: r => some r
  | '\n' :: r => some r
  | _ => none

/-- `\r?\n---\r?\n(.+)$` at the head of the input: the closing delimiter of
the prompt regex, returning the (necessarily nonempty) captured body. -/
def promptCloseAt (l : List Char) : Option (List Char) :=
  (dropNewline l).bind fun r =>
    if "---".toList.isPrefixOf r then
      (dropNewline (r.drop 3)).bind fun body =>
        if body.isEmpty then none else some body
    else none

/-- Non-greedy scan for `.+?\r?\n---\r?\n(.+)$`: `started` records whether
`.+?` has consumed at least one character. -/
def promptScan : Bool → List Char → Option (List Char)
  | started, l =>
    match (if started then promptCloseAt l else none) with
    | some body => some body
    | none =>
      match l with
      | [] => none
      | _ :: t => promptScan true t

/-- `re.search(r"^---\r?\n.+?\r?\n---\r?\n(.+)$", content, re.DOTALL)` from
line 157: the raw prompt body of the state file (group 1), if it matches. -/
def extractPromptRaw (content : String) : Option String :=
  ((fmOpen content.toList).bind fun r => promptScan false r).map fun l => ⟨l⟩

/-- Lines 158-160: the prompt text — the stripped raw body, or `""` when
the prompt regex does not match. -/
def promptTextOf (content : String) : String :=
  ((extractPromptRaw content).map pyStrip).getD ""

/-- `iteration:\s*\d+` at the head of the input: the remainder after the
(greedy) match, if it matches here. -/
def matchIterPat (l : List Char) : Option (List Char) :=
  if "iteration:".toList.isPrefixOf l then
    let r := (l.drop 10).dropWhile isPySpace
    if (r.takeWhile Char.isDigit).isEmpty then none
    else some (r.dropWhile Char.isDigit)
  else none

/-- Left-to-right non-overlapping replacement of `iteration:\s*\d+` by
`rep`, with fuel (the input length always suffices, since every match
consumes at least the eleven characters `iteration:` plus a digit). -/
def subIterGo (rep : List Char) : Nat → List Char → List Char
  | 0, l => l
  | _ + 1, [] => []
  | fuel + 1, c :: t =>
    match matchIterPat (c :: t) with
    | some rest => rep ++ subIterGo rep fuel rest
    | none => c :: subIterGo rep fuel t

/-- `re.sub(r"iteration:\s*\d+", f"iteration: {n}", content)` from
line 176: replace every occurrence of the pattern, anywhere in the file,
by `iteration: n`. -/
def subIteration (n : Nat) (content : String) : String :=
  ⟨subIterGo ("iteration: " ++ toString n).toList content.toList.length content.toList⟩

/-! ## Transcript processing (`stop-hook.py` lines 104-141) -/

/-- The substring the script looks for when filtering transcript lines
(line 106). -/
def roleNeedle : List Char :=
  "\"role\":\"assistant\"".toList

/-- Result of lines 120-135: either the extracted `last_output`, an
exception caught by the local `except (JSONDecodeError, KeyError,
TypeError)` handler, or an exception (an `AttributeError`) that only the
global handler catches. -/
inductive Extracted where
  | ok (lastOutput : String)
  | caught (tag : String)
  | uncaught (tag : String)
deriving Repr, DecidableEq

/-- The list comprehension of lines 123-127: walk the `content` items,
keeping the `"text"` value (default `""`) of every dict whose `"type"`
equals `"text"`.  A non-dict item raises `AttributeError` (`none`). -/
def gatherTexts : List Json → Option (List Json)
  | [] => some []
  | .obj f :: rest =>
    (gatherTexts rest).map fun l =>
      match objLookup f "type" with
      | some (.str t) =>
        if t = "text" then ((objLookup f "text").getD (.str "")) :: l else l
      | _ => l
  | _ :: _ => none

/-- `"\n".join(text_content)`: joining succeeds only if every collected
value is a string, otherwise Python raises `TypeError`. -/
def joinTexts : List Json → Option (List String)
  | [] => some []
  | .str s :: rest => (joinTexts rest).map fun l => s :: l
  | _ :: _ => none

/-- Lines 120-135 applied to the last assistant line: parse it as JSON and
extract the newline-joined text fragments, with Python's exception
behavior.  `item.get` on a non-dict raises `AttributeError`, which the
local handler does not catch; iterating a non-iterable raises `TypeError`,
which it does. -/
def extractLastOutput (line : String) : Extracted :=
  match parseJson line with
  | none => .caught "JSONDecodeError"
  | some (.obj fields) =>
    match (objLookup fields "message").getD (.obj []) with
    | .obj mfields =>
      (match (objLookup mfields "content").getD (.arr []) with
       | .arr items =>
         (match gatherTexts items with
          | none => .uncaught "AttributeError"
          | some vals =>
            match joinTexts vals with
            | some strs => .ok (String.intercalate "\n" strs)
            | none => .caught "TypeError")
       | .obj [] => .ok ""
       | .obj (_ :: _) => .uncaught "AttributeError"
       | .str s => if s = "" then .ok "" else .uncaught "AttributeError"
       | _ => .caught "TypeError")
    | _ => .uncaught "AttributeError"
  | some _ => .uncaught "AttributeError"

/-- `re.search(r"<promise>(.*?)</promise>", last_output, re.DOTALL)` from
line 145: the inner text of the first promise span and the text after its
closing tag, if a span exists. -/
def findPromiseSpan (lastOutput : String) : Option (String × String) :=
  (splitAtSub "<promise>".toList lastOutput.toList).bind fun p =>
    (splitAtSub "</promise>".toList p.2).map fun q => (⟨q.1⟩, ⟨q.2⟩)

/-! ## The handler as a function on its observable effects -/

/-- Observable outcome of one run of the script: the lines printed to
stdout and stderr, the final contents of `.claude/ralph-loop.local.md`
(`none` when it is absent or was deleted), and the process exit code. -/
structure Effects where
  stdout : List String
  stderr : List String
  stateFile : Option String
  exitCode : Nat
deriving Repr, DecidableEq

/-- Lines 34-37: frontmatter failed to parse. -/
def fmWarnEffects : Effects :=
  ⟨[], ["Warning: Ralph loop: Failed to parse frontmatter"], none, 0⟩

/-- Lines 63-71: the `iteration` value is missing or not positive. -/
def corruptEffects : Effects :=
  ⟨[],
   ["Warning: Ralph loop: State file corrupted",
    "   File: .claude/ralph-loop.local.md",
    "   Problem: \x27iteration\x27 field is not a valid number",
    "",
    "   This usually means the state file was manually edited or corrupted.",
    "   Ralph loop is stopping. Run /ralph-loop again to start fresh."],
   none, 0⟩

/-- Lines 74-77: the iteration limit is reached.  Note that the
announcement is printed by a bare `print(...)`, hence to stdout. -/
def limitEffects (maxIterations : Nat) : Effects :=
  ⟨["Stop: Ralph loop: Max iterations (" ++ toString maxIterations ++ ") reached."],
   [], none, 0⟩

/-- Lines 85-87: stdin was nonempty but not valid JSON. -/
def badStdinEffects : Effects :=
  ⟨[], ["Warning: Ralph loop: Failed to parse hook input JSON"], none, 0⟩

/-- Lines 89-92: stdin was empty or parsed to a falsy value. -/
def noInputEffects : Effects :=
  ⟨[], ["Warning: Ralph loop: No hook input received"], none, 0⟩

/-- Lines 96-102: no usable transcript path, or the file does not exist;
`shown` is `str(transcript_path)`. -/
def noTranscriptEffects (shown : String) : Effects :=
  ⟨[],
   ["Warning: Ralph loop: Transcript file not found",
    "   Expected: " ++ shown,
    "   This is unusual and may indicate a Claude Code internal issue.",
    "   Ralph loop is stopping."],
   none, 0⟩

/-- Lines 108-114: no transcript line contains the assistant marker. -/
def noAssistantEffects (transcriptPath : String) : Effects :=
  ⟨[],
   ["Warning: Ralph loop: No assistant messages found in transcript",
    "   Transcript: " ++ transcriptPath,
    "   This is unusual and may indicate a transcript format issue",
    "   Ralph loop is stopping."],
   none, 0⟩

/-- Lines 129-135: the last assistant line raised a caught exception. -/
def badMessageEffects (tag : String) : Effects :=
  ⟨[],
   ["Warning: Ralph loop: Failed to parse assistant message JSON",
    "   Error: " ++ tag,
    "   This may indicate a transcript format issue",
    "   Ralph loop is stopping."],
   none, 0⟩

/-- Lines 137-141: the assistant message had no text content. -/
def noTextEffects : Effects :=
  ⟨[],
   ["Warning: Ralph loop: Assistant message contained no text content",
    "   Ralph loop is stopping."],
   none, 0⟩

/-- Lines 149-151: the completion promise was detected (announced by a
bare `print(...)`, hence on stdout). -/
def doneEffects (promise : String) : Effects :=
  ⟨["Done: Ralph loop: Detected <promise>" ++ promise ++ "</promise>"],
   [], none, 0⟩

/-- Lines 162-173: the prompt body is missing or empty. -/
def noPromptEffects : Effects :=
  ⟨[],
   ["Warning: Ralph loop: State file corrupted or incomplete",
    "   File: .claude/ralph-loop.local.md",
    "   Problem: No prompt text found",
    "",
    "   This usually means:",
    "     - State file was manually edited",
    "     - File was corrupted during writing",
    "",
    "   Ralph loop is stopping. Run /ralph-loop again to start fresh."],
   none, 0⟩

/-- Lines 195-209: the global `except Exception` handler — log, best-effort
delete of the state file, exit 0. -/
def globalErrorEffects (tag : String) : Effects :=
  ⟨[],
   ["Error: Ralph loop: Unexpected error occurred",
    "   Error: " ++ tag,
    "   Ralph loop is stopping to prevent crash."],
   none, 0⟩

/-- Lines 180-183: the `systemMessage` of the block decision. -/
def systemMsgFor (promise : Option String) (nextIteration : Nat) : String :=
  match promise with
  | some p =>
    "Refresh: Ralph iteration " ++ toString nextIteration ++
      " | To stop: output <promise>" ++ p ++
      "</promise> (ONLY when statement is TRUE - do not lie to exit!)"
  | none =>
    "Refresh: Ralph iteration " ++ toString nextIteration ++
      " | No completion promise set - loop runs infinitely"

/-- Line 192: `json.dumps({"decision": "block", "reason": prompt_text,
"systemMessage": system_msg})`. -/
def renderBlock (reason systemMsg : String) : String :=
  ⟨lbrace :: ("\"decision\": \"block\", \"reason\": ".toList ++
    (jsonQuote reason).toList ++ ", \"systemMessage\": ".toList ++
    (jsonQuote systemMsg).toList ++ [rbrace])⟩

/-- Lines 153-193: the loop continues — extract the prompt, bail out if it
is empty, otherwise rewrite the iteration counter in the state file and
emit the block decision. -/
def continueStage (content : String) (cfg : LoopConfig) : Effects :=
  let nextIteration := cfg.iteration + 1
  let promptText := promptTextOf content
  if promptText = "" then noPromptEffects
  else
    ⟨[renderBlock promptText (systemMsgFor cfg.completionPromise nextIteration)],
     [], some (subIteration nextIteration content), 0⟩

/-- Lines 143-151: when a completion promise is configured (a truthy
string) and the first promise span matches it after whitespace
normalization, announce completion; otherwise fall through to the
continue stage. -/
def promiseStage (content : String) (cfg : LoopConfig) (lastOutput : String) : Effects :=
  match cfg.completionPromise with
  | some p =>
    if p = "" then continueStage content cfg
    else
      match findPromiseSpan lastOutput with
      | some span =>
        if normalizeWs span.1 = p then doneEffects p
        else continueStage content cfg
      | none => continueStage content cfg
  | none => continueStage content cfg

/-- The post-selection part of the transcript stage (lines 119-151): what
the handler does once the last assistant-marker line is fixed. -/
def handleAssistantLine (content : String) (cfg : LoopConfig) (lastLine : String) : Effects :=
  match extractLastOutput lastLine with
  | .caught tag => badMessageEffects tag
  | .uncaught tag => globalErrorEffects tag
  | .ok lastOutput =>
    if lastOutput = "" then noTextEffects
    else promiseStage content cfg lastOutput

/-- Lines 104-141: read the transcript, pick the last line containing the
assistant marker, and extract `last_output` from it. -/
def transcriptStage (content : String) (cfg : LoopConfig)
    (transcriptPath transcriptContent : String) : Effects :=
  let assistantLines :=
    (splitLines transcriptContent).filter fun l => containsSub roleNeedle l.toList
  match assistantLines.getLast? with
  | none => noAssistantEffects transcriptPath
  | some lastLine => handleAssistantLine content cfg lastLine

/-- `str(value)` for the decoded JSON values that can reach the
`f"   Expected: {transcript_path}"` line (absent key or falsy values; the
placeholder for the unreachable truthy cases is arbitrary). -/
def pyStrFalsy : Option Json → String
  | none => "None"
  | some .null => "None"
  | some (.bool false) => "False"
  | some (.bool true) => "True"
  | some (.num n) => toString n
  | some (.str s) => s
  | some (.arr _) => "[]"
  | some (.obj _) => "\x7b\x7d"

/-- Lines 79-102: parse the hook input JSON from stdin and resolve the
transcript path.  A truthy non-dict payload crashes at `.get`
(`AttributeError`); a truthy non-string path crashes inside `Path(...)`
(`TypeError`); both land in the global handler. -/
def stdinStage (stdinRaw content : String) (fs : String → Option String)
    (cfg : LoopConfig) : Effects :=
  if pyStrip stdinRaw = "" then noInputEffects
  else
    match parseJson stdinRaw with
    | none => badStdinEffects
    | some hookInput =>
      if jsonTruthy hookInput = false then noInputEffects
      else
        match hookInput with
        | .obj fields =>
          let tpv := objLookup fields "transcript_path"
          match tpv with
          | none => noTranscriptEffects "None"
          | some v =>
            if jsonTruthy v = false then noTranscriptEffects (pyStrFalsy (some v))
            else
              match v with
              | .str tp =>
                match fs tp with
                | none => noTranscriptEffects tp
                | some tc => transcriptStage content cfg tp tc
              | _ => globalErrorEffects "TypeError"
        | _ => globalErrorEffects "AttributeError"

/-- Lines 32-77: parse the frontmatter, handle the inactive flag, extract
the fields, and run the corruption and limit checks. -/
def contentStage (stdinRaw content : String) (fs : String → Option String) : Effects :=
  match frontmatterMatch content with
  | none => fmWarnEffects
  | some fm =>
    if inactiveCheck fm then ⟨[], [], some content, 0⟩
    else
      let cfg := parseFields fm
      if cfg.iteration = 0 then corruptEffects
      else if 0 < cfg.maxIterations ∧ cfg.maxIterations ≤ cfg.iteration then
        limitEffects cfg.maxIterations
      else stdinStage stdinRaw content fs cfg

/-- The whole of `main` (lines 15-209): `stdinRaw` is what `sys.stdin.read()`
returns, `state` the contents of `.claude/ralph-loop.local.md` (`none` when
the file does not exist), and `fs` maps transcript paths to file contents. -/
def runHook (stdinRaw : String) (state : Option String)
    (fs : String → Option String) : Effects :=
  match state with
  | none => ⟨[], [], none, 0⟩
  | some content =>
    if content = "" then ⟨[], [], some content, 0⟩
    else contentStage stdinRaw content fs

/-! ## Derived predicates used in theorem statements -/

/-- The promise check of lines 143-151 does not fire: no promise is
configured, or it is falsy, or the first promise span (if any) does not
normalize to it. -/
def promiseMiss (promise : Option String) (lastOutput : String) : Bool :=
  match promise with
  | none => true
  | some p =>
    p = "" ||
      match findPromiseSpan lastOutput with
      | none => true
      | some span => normalizeWs span.1 ≠ p

/-- Some promise span strictly after the first one normalizes exactly to
the configured promise. -/
def laterSpanMatches (afterFirst : String) (p : String) : Bool :=
  match findPromiseSpan afterFirst with
  | some span => normalizeWs span.1 = p
  | none => false

/-! ## Concrete inputs used by witnesses and counterexamples -/

/-- A hook stdin payload naming the transcript `t.jsonl`. -/
def stdinPayload : String := "\x7b\"transcript_path\": \"t.jsonl\"\x7d"

/-- A filesystem carrying exactly the transcript `t.jsonl`. -/
def fsWith (tc : String) : String → Option String :=
  fun p => if p = "t.jsonl" then some tc else none

/-- An empty filesystem. -/
def emptyFs : String → Option String := fun _ => none

/-- A compactly serialized assistant transcript line saying `hello`. -/
def assistantLineHello : String :=
  "\x7b\"role\":\"assistant\",\"message\":\x7b\"content\":[\x7b\"type\":\"text\",\"text\":\"hello\"\x7d]\x7d\x7d"

/-- An assistant transcript record serialized with spaces after the
colons, as `json.dumps(..., indent=...)`-style writers or other hosts
produce: its `role` field is `"assistant"`, but the line does not contain
the exact substring `"role":"assistant"`. -/
def assistantLineSpaced : String :=
  "\x7b\"role\": \"assistant\", \"message\": \x7b\"content\": [\x7b\"type\": \"text\", \"text\": \"hi\"\x7d]\x7d\x7d"

/-- An assistant line whose text carries a promise span with extra
whitespace inside. -/
def assistantLinePromise : String :=
  "\x7b\"role\":\"assistant\",\"message\":\x7b\"content\":[\x7b\"type\":\"text\",\"text\":\"<promise>  DONE   now </promise>\"\x7d]\x7d\x7d"

/-- An assistant line whose text carries a non-matching first promise span
followed by an exactly-matching second span. -/
def assistantLineTwoSpans : String :=
  "\x7b\"role\":\"assistant\",\"message\":\x7b\"content\":[\x7b\"type\":\"text\",\"text\":\"<promise>nope</promise> and <promise>DONE now</promise>\"\x7d]\x7d\x7d"

/-- A well-formed state file with no completion promise. -/
def statePlain : String := "---\nactive: true\niteration: 1\n---\nTask\n"

/-- A well-formed state file whose prompt body itself contains an
`iteration: <digits>` occurrence. -/
def stateBodyIter : String :=
  "---\nactive: true\niteration: 1\n---\nDo the thing. iteration: 99 times\n"

/-- A state file at its iteration limit. -/
def stateLimit : String :=
  "---\nactive: true\niteration: 3\nmax_iterations: 3\n---\nbody\n"

/-- A well-formed state file configuring the promise `DONE now`. -/
def statePromise : String :=
  "---\nactive: true\niteration: 2\nmax_iterations: 5\ncompletion_promise: \"DONE now\"\n---\nKeep going\n"

/-- A state file declaring the loop inactive. -/
def stateInactive : String := "---\nactive: false\n---\nbody"

/-- A state file declaring the loop inactive in capitals. -/
def stateInactiveCaps : String := "---\nActive: FALSE\n---\nbody"

/-- A state file whose iteration field parses to zero. -/
def stateIterZero : String := "---\nactive: true\niteration: 0\n---\nbody"

/-! ## Helper lemmas -/

theorem continueStage_exitCode (content : String) (cfg : LoopConfig) :
    (continueStage content cfg).exitCode = 0 := by
  simp only [continueStage]
  split <;> rfl

theorem promiseStage_exitCode (content : String) (cfg : LoopConfig) (lastOutput : String) :
    (promiseStage content cfg lastOutput).exitCode = 0 := by
  simp only [promiseStage]
  repeat' split
  all_goals first
    | rfl
    | exact continueStage_exitCode _ _

theorem handleAssistantLine_exitCode (content : String) (cfg : LoopConfig) (lastLine : String) :
    (handleAssistantLine content cfg lastLine).exitCode = 0 := by
  simp only [handleAssistantLine]
  repeat' split
  all_goals first
    | rfl
    | exact promiseStage_exitCode _ _ _

theorem transcriptStage_exitCode (content : String) (cfg : LoopConfig)
    (transcriptPath transcriptContent : String) :
    (transcriptStage content cfg transcriptPath transcriptContent).exitCode = 0 := by
  simp only [transcriptStage]
  repeat' split
  all_goals first
    | rfl
    | exact handleAssistantLine_exitCode _ _ _

theorem stdinStage_exitCode (stdinRaw content : String) (fs : String → Option String)
    (cfg : LoopConfig) :
    (stdinStage stdinRaw content fs cfg).exitCode = 0 := by
  simp only [stdinStage]
  repeat' split
  all_goals first
    | rfl
    | exact transcriptStage_exitCode _ _ _ _

theorem contentStage_exitCode (stdinRaw content : String) (fs : String → Option String) :
    (contentStage stdinRaw content fs).exitCode = 0 := by
  simp only [contentStage]
  repeat' split
  all_goals first
    | rfl
    | exact stdinStage_exitCode _ _ _ _

theorem runHook_of_content (stdinRaw content : String) (fs : String → Option String)
    (hne : content ≠ "") :
    runHook stdinRaw (some content) fs = contentStage stdinRaw content fs := by
  simp only [runHook, if_neg hne]

theorem frontmatter_content_ne_empty (content : String) (fm : String)
    (hfm : frontmatterMatch content = some fm) : content ≠ "" := by
  intro h
  rw [h] at hfm
  exact Option.noConfusion hfm

theorem contentStage_to_stdin (stdinRaw content : String) (fs : String → Option String)
    (fm : String) (cfg : LoopConfig)
    (hfm : frontmatterMatch content = some fm)
    (hact : inactiveCheck fm = false)
    (hcfg : parseFields fm = cfg)
    (hit : cfg.iteration ≠ 0)
    (hmax : ¬(0 < cfg.maxIterations ∧ cfg.maxIterations ≤ cfg.iteration)) :
    contentStage stdinRaw content fs = stdinStage stdinRaw content fs cfg := by
  simp only [contentStage, hfm, hact, hcfg, Bool.false_eq_true, if_false,
    if_neg hit, if_neg hmax]

theorem stdinStage_to_transcript (stdinRaw content : String) (fs : String → Option String)
    (cfg : LoopConfig) (fields : List (String × Json)) (tp tc : String)
    (hraw : pyStrip stdinRaw ≠ "")
    (hjson : parseJson stdinRaw = some (.obj fields))
    (hfne : fields ≠ [])
    (htp : objLookup fields "transcript_path" = some (.str tp))
    (htpne : tp ≠ "")
    (hfs : fs tp = some tc) :
    stdinStage stdinRaw content fs cfg = transcriptStage content cfg tp tc := by
  have htruthy : jsonTruthy (.obj fields) = true := by
    cases fields with
    | nil => exact absurd rfl hfne
    | cons a l => rfl
  have hstruthy : jsonTruthy (.str tp) = true := by
    simp [jsonTruthy, htpne]
  simp only [stdinStage, if_neg hraw, hjson, htruthy, htp, hstruthy, hfs]
  simp

theorem transcriptStage_to_handle (content : String) (cfg : LoopConfig)
    (tp tc lastLine : String)
    (hlast : (((splitLines tc).filter fun l => containsSub roleNeedle l.toList).getLast?) =
      some lastLine) :
    transcriptStage content cfg tp tc = handleAssistantLine content cfg lastLine := by
  simp only [transcriptStage, hlast]

theorem handle_to_promise (content : String) (cfg : LoopConfig) (lastLine lastOutput : String)
    (hex : extractLastOutput lastLine = .ok lastOutput)
    (hlo : lastOutput ≠ "") :
    handleAssistantLine content cfg lastLine = promiseStage content cfg lastOutput := by
  simp only [handleAssistantLine, hex, if_neg hlo]

theorem promise_to_continue (content : String) (cfg : LoopConfig) (lastOutput : String)
    (hmiss : promiseMiss cfg.completionPromise lastOutput = true) :
    promiseStage content cfg lastOutput = continueStage content cfg := by
  cases hcp : cfg.completionPromise with
  | none => simp [promiseStage, hcp]
  | some p =>
    rw [hcp] at hmiss
    simp only [promiseMiss] at hmiss
    simp only [promiseStage, hcp]
    by_cases hp : p = ""
    · simp [hp]
    · rw [if_neg hp]
      cases hspan : findPromiseSpan lastOutput with
      | none => rfl
      | some span =>
        simp only [hspan] at hmiss
        have hne : normalizeWs span.1 ≠ p := by simpa [hp] using hmiss
        simp [hne]

theorem continue_to_block (content : String) (cfg : LoopConfig) (rawBody : String)
    (hbody : extractPromptRaw content = some rawBody)
    (hbne : pyStrip rawBody ≠ "") :
    continueStage content cfg =
      ⟨[renderBlock (pyStrip rawBody) (systemMsgFor cfg.completionPromise (cfg.iteration + 1))],
       [], some (subIteration (cfg.iteration + 1) content), 0⟩ := by
  have hpt : promptTextOf content = pyStrip rawBody := by
    simp [promptTextOf, hbody]
  simp only [continueStage, hpt, if_neg hbne]

theorem continueStage_ne_done (content : String) (cfg : LoopConfig) (p : String) :
    continueStage content cfg ≠ doneEffects p := by
  simp only [continueStage]
  split
  · simp [noPromptEffects, doneEffects]
  · simp [doneEffects]

theorem runHook_to_transcript (stdinRaw content : String) (fs : String → Option String)
    (fm : String) (cfg : LoopConfig) (fields : List (String × Json)) (tp tc : String)
    (hfm : frontmatterMatch content = some fm)
    (hact : inactiveCheck fm = false)
    (hcfg : parseFields fm = cfg)
    (hit : cfg.iteration ≠ 0)
    (hmax : ¬(0 < cfg.maxIterations ∧ cfg.maxIterations ≤ cfg.iteration))
    (hraw : pyStrip stdinRaw ≠ "")
    (hjson : parseJson stdinRaw = some (.obj fields))
    (hfne : fields ≠ [])
    (htp : objLookup fields "transcript_path" = some (.str tp))
    (htpne : tp ≠ "")
    (hfs : fs tp = some tc) :
    runHook stdinRaw (some content) fs = transcriptStage content cfg tp tc := by
  rw [runHook_of_content _ _ _ (frontmatter_content_ne_empty _ _ hfm),
    contentStage_to_stdin _ _ _ _ _ hfm hact hcfg hit hmax,
    stdinStage_to_transcript _ _ _ _ _ _ _ hraw hjson hfne htp htpne hfs]

theorem runHook_to_promise (stdinRaw content : String) (fs : String → Option String)
    (fm : String) (cfg : LoopConfig) (fields : List (String × Json))
    (tp tc lastLine lastOutput : String)
    (hfm : frontmatterMatch content = some fm)
    (hact : inactiveCheck fm = false)
    (hcfg : parseFields fm = cfg)
    (hit : cfg.iteration ≠ 0)
    (hmax : ¬(0 < cfg.maxIterations ∧ cfg.maxIterations ≤ cfg.iteration))
    (hraw : pyStrip stdinRaw ≠ "")
    (hjson : parseJson stdinRaw = some (.obj fields))
    (hfne : fields ≠ [])
    (htp : objLookup fields "transcript_path" = some (.str tp))
    (htpne : tp ≠ "")
    (hfs : fs tp = some tc)
    (hlast : (((splitLines tc).filter fun l => containsSub roleNeedle l.toList).getLast?) =
      some lastLine)
    (hex : extractLastOutput lastLine = .ok lastOutput)
    (hlo : lastOutput ≠ "") :
    runHook stdinRaw (some content) fs = promiseStage content cfg lastOutput := by
  rw [runHook_to_transcript _ _ _ _ _ _ _ _ hfm hact hcfg hit hmax hraw hjson hfne htp htpne hfs,
    transcriptStage_to_handle _ _ _ _ _ hlast,
    handle_to_promise _ _ _ _ hex hlo]

/-! ## Claim theorems -/

/-- C3: for every stdin payload, state-file content and transcript
filesystem, the handler's exit code is 0: every decision path of the
embedded `main`, including the paths modelling exceptions that reach the
global handler, ends in `sys.exit(0)`. -/
theorem c3_exit_always_zero (stdinRaw : String) (state : Option String)
    (fs : String → Option String) :
    (runHook stdinRaw state fs).exitCode = 0 := by
  cases state with
  | none => rfl
  | some content =>
    simp only [runHook]
    split
    · rfl
    · exact contentStage_exitCode _ _ _

/-- C10: if the state file exists with empty content, the handler exits 0
silently — nothing on stdout, nothing on stderr, and the empty state file
is left on disk. -/
theorem c10_empty_state_silent (stdinRaw : String) (fs : String → Option String) :
    runHook stdinRaw (some "") fs = ⟨[], [], some "", 0⟩ := rfl

/-- C2 (behavior at the failing input): for the state file
`iteration: 3, max_iterations: 3`, the handler emits the limit-reached
announcement as a stdout line (the script calls `print` without
`file=sys.stderr`), prints nothing to stderr, deletes the state file and
exits 0 — the claim instead requires the announcement on stderr. -/
theorem c2_limit_announcement_on_stdout :
    runHook "" (some stateLimit) emptyFs =
      ⟨["Stop: Ralph loop: Max iterations (3) reached."], [], none, 0⟩ := rfl

/-- C8: whenever the parsable header declares the loop inactive (the
case-insensitive `active:\s*(false|no)` search succeeds on the
frontmatter), the handler produces no stdout, leaves the state file
intact, and exits 0. -/
theorem c8_inactive_leaves_file (stdinRaw content : String) (fs : String → Option String)
    (fm : String)
    (hfm : frontmatterMatch content = some fm)
    (hact : inactiveCheck fm = true) :
    runHook stdinRaw (some content) fs = ⟨[], [], some content, 0⟩ := by
  rw [runHook_of_content _ _ _ (frontmatter_content_ne_empty _ _ hfm)]
  simp [contentStage, hfm, hact]

/-- C8 witness: a concrete inactive state file (in capitals) is left on
disk with no output. -/
theorem c8_inactive_leaves_file_witness :
    runHook stdinPayload (some stateInactiveCaps) emptyFs =
      ⟨[], [], some stateInactiveCaps, 0⟩ :=
  c8_inactive_leaves_file stdinPayload stateInactiveCaps emptyFs "Active: FALSE" rfl rfl

/-- C7 counterexample: the claim quantifies over every parsable header
whose iteration value is missing or nonpositive, but a header that also
declares the loop inactive is handled earlier: for
`---\nactive: false\n---\nbody` the header parses, the iteration field is
missing (defaults to 0), and yet the handler neither warns nor deletes —
it exits silently leaving the file intact. -/
theorem c7_counterexample :
    frontmatterMatch stateInactive = some "active: false" ∧
      (parseFields "active: false").iteration = 0 ∧
      runHook "" (some stateInactive) emptyFs = ⟨[], [], some stateInactive, 0⟩ :=
  ⟨rfl, rfl, rfl⟩

/-- C7 (amended): for every parsable header that does not declare the loop
inactive and whose iteration field is missing or parses to a nonpositive
value (missing numeric fields default to 0), the handler warns with
diagnostic detail on stderr, deletes the state file, emits no stdout, and
exits 0. -/
theorem c7_corrupt_iteration (stdinRaw content : String) (fs : String → Option String)
    (fm : String)
    (hfm : frontmatterMatch content = some fm)
    (hact : inactiveCheck fm = false)
    (hit : (parseFields fm).iteration = 0) :
    runHook stdinRaw (some content) fs = corruptEffects := by
  rw [runHook_of_content _ _ _ (frontmatter_content_ne_empty _ _ hfm)]
  simp [contentStage, hfm, hact, hit]

/-- C7 witness: a state file with `iteration: 0` takes the corruption
path. -/
theorem c7_corrupt_iteration_witness :
    runHook stdinPayload (some stateIterZero) emptyFs = corruptEffects :=
  c7_corrupt_iteration stdinPayload stateIterZero emptyFs "active: true\niteration: 0" rfl rfl rfl

/-- C1 counterexample: with a state file whose prompt body itself contains
`iteration: 99`, the continue path rewrites the body as well: the new
prompt body (as the script itself extracts it) differs from the old one,
so the file does not differ only in the iteration header line. -/
theorem c1_counterexample :
    (runHook stdinPayload (some stateBodyIter)
        (fsWith (assistantLineHello ++ "\n"))).stateFile =
      some "---\nactive: true\niteration: 2\n---\nDo the thing. iteration: 2 times\n" ∧
      extractPromptRaw "---\nactive: true\niteration: 2\n---\nDo the thing. iteration: 2 times\n" ≠
        extractPromptRaw stateBodyIter :=
  ⟨rfl, by decide⟩

/-- C1 (amended): when the loop continues, the handler rewrites the state
file by replacing every occurrence of `iteration:` + whitespace + digits —
in the header line and anywhere else in the file, including the prompt
body, normalizing the separator to a single space — with
`iteration: <incremented value>`; text outside such occurrences is
preserved (`subIteration` is exactly this global replacement). -/
theorem c1_iteration_rewrite (stdinRaw content : String) (fs : String → Option String)
    (fm : String) (cfg : LoopConfig) (fields : List (String × Json))
    (tp tc lastLine lastOutput rawBody : String)
    (hfm : frontmatterMatch content = some fm)
    (hact : inactiveCheck fm = false)
    (hcfg : parseFields fm = cfg)
    (hit : cfg.iteration ≠ 0)
    (hmax : ¬(0 < cfg.maxIterations ∧ cfg.maxIterations ≤ cfg.iteration))
    (hraw : pyStrip stdinRaw ≠ "")
    (hjson : parseJson stdinRaw = some (.obj fields))
    (hfne : fields ≠ [])
    (htp : objLookup fields "transcript_path" = some (.str tp))
    (htpne : tp ≠ "")
    (hfs : fs tp = some tc)
    (hlast : (((splitLines tc).filter fun l => containsSub roleNeedle l.toList).getLast?) =
      some lastLine)
    (hex : extractLastOutput lastLine = .ok lastOutput)
    (hlo : lastOutput ≠ "")
    (hmiss : promiseMiss cfg.completionPromise lastOutput = true)
    (hbody : extractPromptRaw content = some rawBody)
    (hbne : pyStrip rawBody ≠ "") :
    (runHook stdinRaw (some content) fs).stateFile =
      some (subIteration (cfg.iteration + 1) content) := by
  rw [runHook_to_promise stdinRaw content fs fm cfg fields tp tc lastLine lastOutput
      hfm hact hcfg hit hmax hraw hjson hfne htp htpne hfs hlast hex hlo,
    promise_to_continue content cfg lastOutput hmiss,
    continue_to_block content cfg rawBody hbody hbne]

/-- C1 witness: on a clean state file the continue path rewrites the state
file to the global replacement's result. -/
theorem c1_iteration_rewrite_witness :
    (runHook stdinPayload (some statePlain)
        (fsWith (assistantLineHello ++ "\n"))).stateFile =
      some (subIteration 2 statePlain) :=
  c1_iteration_rewrite stdinPayload statePlain (fsWith (assistantLineHello ++ "\n"))
    "active: true\niteration: 1" ⟨1, 0, none⟩ [("transcript_path", .str "t.jsonl")]
    "t.jsonl" (assistantLineHello ++ "\n") assistantLineHello "hello" "Task\n"
    rfl rfl rfl (by decide) (by decide) (by decide) rfl (List.cons_ne_nil _ _) rfl
    (by decide) rfl rfl rfl (by decide) rfl rfl (by decide)

/-- C4 counterexample: a transcript whose only (and hence last) record has
role field `"assistant"` but is serialized with spaces after the colons:
the record's `role` field is `"assistant"`, yet the handler does not use
it as `last_output` — it takes the no-assistant-messages warning path
(deleting the state file, empty stdout) because its line-selection is the
literal substring test `'"role":"assistant"' in line`. -/
theorem c4_counterexample :
    parseJson assistantLineSpaced =
      some (.obj [("role", .str "assistant"),
        ("message", .obj [("content",
          .arr [.obj [("type", .str "text"), ("text", .str "hi")]])])]) ∧
      runHook stdinPayload (some statePlain) (fsWith (assistantLineSpaced ++ "\n")) =
        noAssistantEffects "t.jsonl" :=
  ⟨rfl, rfl⟩

/-- C4 (amended): the handler selects as its assistant message the last
transcript line containing the literal substring `"role":"assistant"` (a
compact-serialization heuristic, not a JSON role-field check): its
behavior past the transcript stage depends on the transcript only through
that line, and when no line contains the substring it warns, deletes the
state file, and allows exit. -/
theorem c4_assistant_line_selection (stdinRaw content : String) (fs : String → Option String)
    (fm : String) (cfg : LoopConfig) (fields : List (String × Json)) (tp tc : String)
    (hfm : frontmatterMatch content = some fm)
    (hact : inactiveCheck fm = false)
    (hcfg : parseFields fm = cfg)
    (hit : cfg.iteration ≠ 0)
    (hmax : ¬(0 < cfg.maxIterations ∧ cfg.maxIterations ≤ cfg.iteration))
    (hraw : pyStrip stdinRaw ≠ "")
    (hjson : parseJson stdinRaw = some (.obj fields))
    (hfne : fields ≠ [])
    (htp : objLookup fields "transcript_path" = some (.str tp))
    (htpne : tp ≠ "")
    (hfs : fs tp = some tc) :
    (((splitLines tc).filter fun l => containsSub roleNeedle l.toList) = [] →
        runHook stdinRaw (some content) fs = noAssistantEffects tp) ∧
      (∀ lastLine,
        (((splitLines tc).filter fun l => containsSub roleNeedle l.toList).getLast?) =
            some lastLine →
          runHook stdinRaw (some content) fs = handleAssistantLine content cfg lastLine) := by
  have hreach := runHook_to_transcript stdinRaw content fs fm cfg fields tp tc
    hfm hact hcfg hit hmax hraw hjson hfne htp htpne hfs
  constructor
  · intro hempty
    rw [hreach]
    simp only [transcriptStage]
    rw [hempty]
    rfl
  · intro lastLine hlast
    rw [hreach, transcriptStage_to_handle content cfg tp tc lastLine hlast]

/-- C4 witness: with a transcript whose only line is the spaced assistant
record (no line carries the marker substring), the handler takes the
no-assistant warning path. -/
theorem c4_assistant_line_selection_witness :
    runHook stdinPayload (some statePlain) (fsWith (assistantLineSpaced ++ "\n")) =
      noAssistantEffects "t.jsonl" :=
  (c4_assistant_line_selection stdinPayload statePlain
      (fsWith (assistantLineSpaced ++ "\n"))
      "active: true\niteration: 1" ⟨1, 0, none⟩ [("transcript_path", .str "t.jsonl")]
      "t.jsonl" (assistantLineSpaced ++ "\n")
      rfl rfl rfl (by decide) (by decide) (by decide) rfl (List.cons_ne_nil _ _) rfl
      (by decide) rfl).1 (by decide)

/-- C5: when a completion promise `p` is configured and `last_output`
contains a promise span (the first one, with inner text `inner`), the
handler announces completion, deletes the state file and exits 0 exactly
when `inner` with whitespace runs collapsed and ends trimmed equals `p`
case-sensitively. -/
theorem c5_promise_normalized_match (stdinRaw content : String) (fs : String → Option String)
    (fm : String) (cfg : LoopConfig) (fields : List (String × Json))
    (tp tc lastLine lastOutput p inner afterSpan : String)
    (hfm : frontmatterMatch content = some fm)
    (hact : inactiveCheck fm = false)
    (hcfg : parseFields fm = cfg)
    (hit : cfg.iteration ≠ 0)
    (hmax : ¬(0 < cfg.maxIterations ∧ cfg.maxIterations ≤ cfg.iteration))
    (hraw : pyStrip stdinRaw ≠ "")
    (hjson : parseJson stdinRaw = some (.obj fields))
    (hfne : fields ≠ [])
    (htp : objLookup fields "transcript_path" = some (.str tp))
    (htpne : tp ≠ "")
    (hfs : fs tp = some tc)
    (hlast : (((splitLines tc).filter fun l => containsSub roleNeedle l.toList).getLast?) =
      some lastLine)
    (hex : extractLastOutput lastLine = .ok lastOutput)
    (hlo : lastOutput ≠ "")
    (hcp : cfg.completionPromise = some p)
    (hpne : p ≠ "")
    (hspan : findPromiseSpan lastOutput = some (inner, afterSpan)) :
    (runHook stdinRaw (some content) fs = doneEffects p ↔ normalizeWs inner = p) := by
  rw [runHook_to_promise stdinRaw content fs fm cfg fields tp tc lastLine lastOutput
    hfm hact hcfg hit hmax hraw hjson hfne htp htpne hfs hlast hex hlo]
  constructor
  · intro h
    by_contra hne
    have hmiss : promiseMiss cfg.completionPromise lastOutput = true := by
      simp [promiseMiss, hcp, hspan, hne]
    rw [promise_to_continue content cfg lastOutput hmiss] at h
    exact continueStage_ne_done content cfg p h
  · intro h
    simp [promiseStage, hcp, hpne, hspan, h]

/-- C5 witness: `<promise>  DONE   now </promise>` normalizes to
`DONE now` and completes the loop whose configured promise is exactly
`DONE now`. -/
theorem c5_promise_normalized_match_witness :
    runHook stdinPayload (some statePromise) (fsWith (assistantLinePromise ++ "\n")) =
      doneEffects "DONE now" :=
  (c5_promise_normalized_match stdinPayload statePromise
      (fsWith (assistantLinePromise ++ "\n"))
      "active: true\niteration: 2\nmax_iterations: 5\ncompletion_promise: \"DONE now\""
      ⟨2, 5, some "DONE now"⟩ [("transcript_path", .str "t.jsonl")]
      "t.jsonl" (assistantLinePromise ++ "\n") assistantLinePromise
      "<promise>  DONE   now </promise>" "DONE now" "  DONE   now " ""
      rfl rfl rfl (by decide) (by decide) (by decide) rfl (List.cons_ne_nil _ _) rfl
      (by decide) rfl rfl rfl (by decide) rfl (by decide) rfl).mpr (by decide)

/-- C6: when the loop continues, the handler emits exactly one stdout
line: the JSON object with `decision` equal to `"block"`, `reason` equal
to the state file's raw prompt body (group 1 of the prompt regex —
everything after the header's closing delimiter) trimmed, and
`systemMessage` reporting the new iteration number and, if a promise is
configured, the exact phrase required to stop; the state file is rewritten
and the exit code is 0. -/
theorem c6_block_decision (stdinRaw content : String) (fs : String → Option String)
    (fm : String) (cfg : LoopConfig) (fields : List (String × Json))
    (tp tc lastLine lastOutput rawBody : String)
    (hfm : frontmatterMatch content = some fm)
    (hact : inactiveCheck fm = false)
    (hcfg : parseFields fm = cfg)
    (hit : cfg.iteration ≠ 0)
    (hmax : ¬(0 < cfg.maxIterations ∧ cfg.maxIterations ≤ cfg.iteration))
    (hraw : pyStrip stdinRaw ≠ "")
    (hjson : parseJson stdinRaw = some (.obj fields))
    (hfne : fields ≠ [])
    (htp : objLookup fields "transcript_path" = some (.str tp))
    (htpne : tp ≠ "")
    (hfs : fs tp = some tc)
    (hlast : (((splitLines tc).filter fun l => containsSub roleNeedle l.toList).getLast?) =
      some lastLine)
    (hex : extractLastOutput lastLine = .ok lastOutput)
    (hlo : lastOutput ≠ "")
    (hmiss : promiseMiss cfg.completionPromise lastOutput = true)
    (hbody : extractPromptRaw content = some rawBody)
    (hbne : pyStrip rawBody ≠ "") :
    runHook stdinRaw (some content) fs =
      ⟨[renderBlock (pyStrip rawBody)
          (systemMsgFor cfg.completionPromise (cfg.iteration + 1))],
       [], some (subIteration (cfg.iteration + 1) content), 0⟩ := by
  rw [runHook_to_promise stdinRaw content fs fm cfg fields tp tc lastLine lastOutput
      hfm hact hcfg hit hmax hraw hjson hfne htp htpne hfs hlast hex hlo,
    promise_to_continue content cfg lastOutput hmiss,
    continue_to_block content cfg rawBody hbody hbne]

/-- C6 witness: a clean state file with no promise continues with the
block JSON carrying the trimmed body `Task` and the infinite-loop status
line. -/
theorem c6_block_decision_witness :
    runHook stdinPayload (some statePlain) (fsWith (assistantLineHello ++ "\n")) =
      ⟨[renderBlock "Task" (systemMsgFor none 2)], [],
       some (subIteration 2 statePlain), 0⟩ :=
  c6_block_decision stdinPayload statePlain (fsWith (assistantLineHello ++ "\n"))
    "active: true\niteration: 1" ⟨1, 0, none⟩ [("transcript_path", .str "t.jsonl")]
    "t.jsonl" (assistantLineHello ++ "\n") assistantLineHello "hello" "Task\n"
    rfl rfl rfl (by decide) (by decide) (by decide) rfl (List.cons_ne_nil _ _) rfl
    (by decide) rfl rfl rfl (by decide) rfl rfl (by decide)

/-- C9: only the first `<promise>...</promise>` span of `last_output` is
examined: if its normalized text differs from the configured promise, the
loop continues with the block decision even when a later span (inside the
text after the first span's closing tag) normalizes exactly to the
configured promise. -/
theorem c9_first_span_decides (stdinRaw content : String) (fs : String → Option String)
    (fm : String) (cfg : LoopConfig) (fields : List (String × Json))
    (tp tc lastLine lastOutput p inner afterSpan rawBody : String)
    (hfm : frontmatterMatch content = some fm)
    (hact : inactiveCheck fm = false)
    (hcfg : parseFields fm = cfg)
    (hit : cfg.iteration ≠ 0)
    (hmax : ¬(0 < cfg.maxIterations ∧ cfg.maxIterations ≤ cfg.iteration))
    (hraw : pyStrip stdinRaw ≠ "")
    (hjson : parseJson stdinRaw = some (.obj fields))
    (hfne : fields ≠ [])
    (htp : objLookup fields "transcript_path" = some (.str tp))
    (htpne : tp ≠ "")
    (hfs : fs tp = some tc)
    (hlast : (((splitLines tc).filter fun l => containsSub roleNeedle l.toList).getLast?) =
      some lastLine)
    (hex : extractLastOutput lastLine = .ok lastOutput)
    (hlo : lastOutput ≠ "")
    (hcp : cfg.completionPromise = some p)
    (hpne : p ≠ "")
    (hspan : findPromiseSpan lastOutput = some (inner, afterSpan))
    (hinner : normalizeWs inner ≠ p)
    (hlater : laterSpanMatches afterSpan p = true)
    (hbody : extractPromptRaw content = some rawBody)
    (hbne : pyStrip rawBody ≠ "") :
    runHook stdinRaw (some content) fs =
      ⟨[renderBlock (pyStrip rawBody)
          (systemMsgFor cfg.completionPromise (cfg.iteration + 1))],
       [], some (subIteration (cfg.iteration + 1) content), 0⟩ := by
  have hmiss : promiseMiss cfg.completionPromise lastOutput = true := by
    simp [promiseMiss, hcp, hspan, hinner]
  rw [runHook_to_promise stdinRaw content fs fm cfg fields tp tc lastLine lastOutput
      hfm hact hcfg hit hmax hraw hjson hfne htp htpne hfs hlast hex hlo,
    promise_to_continue content cfg lastOutput hmiss,
    continue_to_block content cfg rawBody hbody hbne]

/-- C9 witness: `<promise>nope</promise> and <promise>DONE now</promise>`
with configured promise `DONE now` continues the loop (block JSON, state
rewritten) although the second span matches exactly. -/
theorem c9_first_span_decides_witness :
    runHook stdinPayload (some statePromise) (fsWith (assistantLineTwoSpans ++ "\n")) =
      ⟨[renderBlock "Keep going" (systemMsgFor (some "DONE now") 3)], [],
       some (subIteration 3 statePromise), 0⟩ :=
  c9_first_span_decides stdinPayload statePromise
    (fsWith (assistantLineTwoSpans ++ "\n"))
    "active: true\niteration: 2\nmax_iterations: 5\ncompletion_promise: \"DONE now\""
    ⟨2, 5, some "DONE now"⟩ [("transcript_path", .str "t.jsonl")]
    "t.jsonl" (assistantLineTwoSpans ++ "\n") assistantLineTwoSpans
    "<promise>nope</promise> and <promise>DONE now</promise>" "DONE now"
    "nope" " and <promise>DONE now</promise>" "Keep going\n"
    rfl rfl rfl (by decide) (by decide) (by decide) rfl (List.cons_ne_nil _ _) rfl
    (by decide) rfl rfl rfl (by decide) rfl (by decide) rfl (by decide) rfl rfl (by decide)
